import Mathlib

set_option maxHeartbeats 1000000
set_option maxRecDepth 16384

/-! Verification of the WhatsApp finance-bot webhook service (`app.py`).

The development shallowly embeds the parts of the program that the
specification talks about: the SQL sanitizer `clean_sql_query` (its regex
substitution `re.sub` with the pattern and the `re.MULTILINE` flag is modelled
character-exactly, as is Python `str.strip`), the keyword router, the two
LangChain chains (with the language model, the database and the schema text as
abstract collaborators, and an explicit counter of Schema Provider calls), and
the Flask webhook handler `receive_message` (with the inbound payload as a
JSON-like tree and Python subscript errors modelled as exceptions). -/

/-- Exception classes of the Python runtime and of the database layer that the
webhook handler or the chains can raise; `receive_message` catches exactly
`KeyError`, `IndexError` and `TypeError`. -/
inductive PyExc where
  | keyError
  | indexError
  | typeError
  | attributeError
  | nameError
  | operationalError
deriving DecidableEq, Repr

/-- Exception classes named in the handler's `except (KeyError, IndexError,
TypeError)` clause in `receive_message`. -/
def caughtExc : List PyExc := [PyExc.keyError, PyExc.indexError, PyExc.typeError]

/-- JSON-like values, modelling the parsed webhook payload `request.get_json()`
(`null` models Python `None`, which `get_json` returns for a non-JSON body). -/
inductive J where
  | null
  | jbool (b : Bool)
  | num (n : Int)
  | str (s : String)
  | arr (elems : List J)
  | obj (fields : List (String × J))

/-- Python subscripting `value[key]` with a string key: dictionaries look the
key up (`KeyError` when absent); every other value raises `TypeError` (lists
and strings want integer indices, `None` and numbers are not subscriptable). -/
def J.key : J → String → Except PyExc J
  | J.obj fields, k =>
    match fields.lookup k with
    | some v => Except.ok v
    | none => Except.error PyExc.keyError
  | _, _ => Except.error PyExc.typeError

/-- Python subscripting `value[i]` with a non-negative integer: lists index
(`IndexError` past the end), strings index into their characters, dictionaries
with only string keys raise `KeyError`, everything else raises `TypeError`. -/
def J.index : J → Nat → Except PyExc J
  | J.arr elems, i =>
    match elems.get? i with
    | some v => Except.ok v
    | none => Except.error PyExc.indexError
  | J.str s, i =>
    match s.data.get? i with
    | some c => Except.ok (J.str (String.mk [c]))
    | none => Except.error PyExc.indexError
  | J.obj _, _ => Except.error PyExc.keyError
  | _, _ => Except.error PyExc.typeError

/-- Calling the string method `.lower()` on a value: succeeds on strings and
raises `AttributeError` on anything else. The lowering itself is modelled
separately by `pyLower`. -/
def J.asStr : J → Except PyExc String
  | J.str s => Except.ok s
  | _ => Except.error PyExc.attributeError

/-- Sequencing of statements that may raise: the first raised exception
propagates, as in a Python `try` block. -/
def exBind {α β : Type} (x : Except PyExc α) (k : α → Except PyExc β) : Except PyExc β :=
  match x with
  | Except.error e => Except.error e
  | Except.ok a => k a

/-- Python `str.lower`, restricted to ASCII case mapping (the keywords the
router compares against are all ASCII). -/
def pyLower (s : String) : String := String.mk (s.data.map Char.toLower)

/-- Python whitespace class (the characters matched by the regex class and by
`str.strip` on ASCII text): space, tab, newline, carriage return, vertical tab
and form feed. -/
def pyIsSpace (c : Char) : Bool :=
  c == ' ' || c == '\t' || c == '\n' || c == '\r' || c == '\x0b' || c == '\x0c'

/-- The three-backtick markdown fence marker, as a character list. -/
def fence : List Char := "```".data

/-- The character list of a newline followed by a closing fence, the exact
suffix that wraps a fenced SQL block. -/
def nlFence : List Char := "\n```".data

/-- Length of the maximal whitespace run at the head of the list: how many
characters a greedy leading regex quantifier on whitespace consumes. -/
def wsRun (l : List Char) : Nat := (l.takeWhile pyIsSpace).length

/-- Whether a position (given by the remaining suffix) is at a line end in the
sense of the regex anchor under `re.MULTILINE`: end of input or just before a
newline. -/
def lineEnd : List Char → Bool
  | [] => true
  | c :: _ => c == '\n'

/-- Whether the second regex alternative can close at offset `k` of the
suffix `l`: three backticks start at `k` and a line end follows them. Offsets
are only ever tried with `k ≤ wsRun l`, so the skipped characters are
whitespace. -/
def alt2Check (l : List Char) (k : Nat) : Bool :=
  fence.isPrefixOf (l.drop k) && lineEnd (l.drop (k + 3))

/-- Greedy backtracking search for the second alternative of the pattern,
trying the largest whitespace consumption first, exactly as the regex engine
backtracks a greedy quantifier. Returns the total match length. -/
def alt2Go (l : List Char) : Nat → Option Nat
  | 0 => if alt2Check l 0 then some 3 else none
  | k + 1 => if alt2Check l (k + 1) then some (k + 4) else alt2Go l k

/-- Match length of the regex alternative matching whitespace and then a
closing fence at a line end, at the head of `l`, if it matches there. -/
def alt2At (l : List Char) : Option Nat := alt2Go l (wsRun l)

/-- Match length of the regex alternative matching an opening fence at a line
start followed by greedy whitespace, at the head of `l`, if it matches there.
The anchor under `re.MULTILINE` requires the position to start the input or to
follow a newline, which the scanner tracks in `atStart`. -/
def alt1At (l : List Char) (atStart : Bool) : Option Nat :=
  if atStart && "```sql".data.isPrefixOf l then some (6 + wsRun (l.drop 6)) else none

/-- Match attempt of the whole pattern at the head of `l`: ordered alternation
tries the opening-fence alternative first, then the closing-fence one. -/
def matchAt (l : List Char) (atStart : Bool) : Option Nat :=
  match alt1At l atStart with
  | some n => some n
  | none => alt2At l

/-- Left-to-right scan of `re.sub` with an empty replacement: at each position
try the pattern; on a match, drop the matched characters and continue after
them (the line-start flag is recomputed from the last consumed character); on
a miss, keep one character and advance. The pattern never matches the empty
string, so every match consumes at least one character and an initial fuel of
the input length suffices; leftover fuel returns the rest unchanged. -/
def subScanF : Nat → List Char → Bool → List Char
  | 0, l, _ => l
  | _ + 1, [], _ => []
  | fuel + 1, c :: rest, atStart =>
    match matchAt (c :: rest) atStart with
    | some n => subScanF fuel ((c :: rest).drop n) (((c :: rest).get? (n - 1)) == some '\n')
    | none => c :: subScanF fuel rest (c == '\n')

/-- Python `str.lstrip` on the character list: drop leading whitespace. -/
def pyLStrip (l : List Char) : List Char := l.dropWhile pyIsSpace

/-- Python `str.rstrip` on the character list: drop trailing whitespace. -/
def pyRStrip (l : List Char) : List Char := (l.reverse.dropWhile pyIsSpace).reverse

/-- Python `str.strip` on the character list: drop whitespace at both ends. -/
def pyStrip (l : List Char) : List Char := pyRStrip (pyLStrip l)

/-- Python `str.strip` as a string-to-string function. -/
def pyStripStr (s : String) : String := String.mk (pyStrip s.data)

/-- The string transformation performed by the body of `clean_sql_query` once
the name `re` resolves: `re.sub` of the fence pattern with the `MULTILINE`
flag and an empty replacement, followed by `.strip()`. -/
def clean_sql_query_regex (query : String) : String :=
  String.mk (pyStrip (subScanF query.data.length query.data true))

/-- Names bound at module level of `app.py`, in source order: the imports of
lines 1 to 17 and the later module-level assignments and definitions. The
module `re` is not among them. -/
def module_level_names : List String :=
  ["os", "json", "requests", "Flask", "request", "jsonify", "load_dotenv",
   "find_dotenv", "ChatPromptTemplate", "SQLDatabase", "StrOutputParser",
   "RunnablePassthrough", "ChatGoogleGenerativeAI", "GOOGLE_API_KEY",
   "DB_PASSWORD", "WHATSAPP_ACCESS_TOKEN", "WHATSAPP_VERIFY_TOKEN",
   "WHATSAPP_PHONE_NUMBER_ID", "llm", "db_uri", "db", "get_schema",
   "clean_sql_query", "run_query", "send_whatsapp_message", "query_template",
   "query_prompt", "response_template", "response_prompt", "sql_chain",
   "query_chain", "insert_template", "insert_prompt", "confirmation_template",
   "confirmation_prompt", "insert_sql_chain", "add_expense_chain", "app",
   "verify_webhook", "receive_message"]

/-- The function `clean_sql_query` as the program actually executes it: its
body evaluates the global name `re`, which is looked up among the module-level
bindings; since the lookup fails, every call raises `NameError`, and the regex
substitution is never reached. -/
def clean_sql_query (query : String) : Except PyExc String :=
  if module_level_names.contains "re" then Except.ok (clean_sql_query_regex query)
  else Except.error PyExc.nameError

/-- External collaborators of a chain invocation: the language model (prompt
to completion, deterministic at temperature zero), the database `db.run`, and
the schema text that `db.get_table_info()` returns. -/
structure ChainEnv where
  llm : String → String
  dbRun : String → String
  schemaText : String

/-- The function `run_query` as the program executes it: it first calls
`clean_sql_query` (which raises) and would then run the cleaned query. -/
def run_query (env : ChainEnv) (query : String) : Except PyExc String :=
  match clean_sql_query query with
  | Except.error e => Except.error e
  | Except.ok cleaned => Except.ok (env.dbRun cleaned)

/-- The `run_query` helper with the name `re` resolved, used to state the
dataflow properties of the chains independently of the missing import. -/
def run_query_regex (env : ChainEnv) (query : String) : String :=
  env.dbRun (clean_sql_query_regex query)

/-- The Schema Provider `get_schema`: returns the schema text and bumps the
explicit counter of Schema Provider invocations. -/
def get_schema (env : ChainEnv) (calls : Nat) : String × Nat :=
  (env.schemaText, calls + 1)

/-- Prompt template interpolation: each placeholder in braces is replaced by
the value bound to its field name, as `ChatPromptTemplate` formatting does. -/
def formatTemplate (t : String) (vars : List (String × String)) : String :=
  vars.foldl (fun acc kv => acc.replace ("\x7b" ++ kv.1 ++ "\x7d") kv.2) t

/-- The SQL-generation prompt template of the query chain (source lines 79 to
86, the triple-quoted literal verbatim). -/
def query_template : String :=
  "\nBaseado no schema da tabela abaixo, escreva uma query SQL que responda à pergunta do usuário.\nResponda apenas com a query SQL.\n\nSchema: {schema}\nPergunta: {question}\nSQL Query:\n"

/-- The natural-language response prompt template of the query chain (source
lines 90 to 98). -/
def response_template : String :=
  "\nBaseado no schema da tabela, na pergunta do usuário, na query SQL e na resposta do banco de dados, escreva uma resposta em linguagem natural e amigável.\n\nSchema: {schema}\nPergunta: {question}\nSQL Query: {query}\nSQL Response: {response}\nResposta:\n"

/-- The INSERT-generation prompt template of the insert chain (source lines
128 to 135): it instructs the model to infer a category, to use the current
date and time via the SQL function NOW() for the `data_hora` field, and to set
`confirmado` to 0. -/
def insert_template : String :=
  "\nBaseado no schema da tabela a seguir, crie um comando SQL INSERT para adicionar o seguinte gasto: {question}.\nTente inferir a categoria do gasto (como \x27Alimentação\x27, \x27Transporte\x27, \x27Lazer\x27, etc.) a partir da descrição. Se a categoria não for clara, use \x27Outros\x27.\nUse a data e hora atuais para o campo data_hora (usando a função SQL NOW()) e defina o campo \x27confirmado\x27 como 0 (FALSE).\n\nSchema: {schema}\nSQL Query:\n"

/-- The confirmation prompt template of the insert chain (source lines 139 to
144). -/
def confirmation_template : String :=
  "\nVocê é um assistente de finanças. O usuário pediu para adicionar um gasto, e o comando SQL foi executado com sucesso.\nEscreva uma resposta curta e amigável confirmando que o gasto foi adicionado.\n\nPedido Original do Usuário: {question}\n"

/-- The sub-chain generating a SELECT query: assign `schema` from the Schema
Provider, format the query prompt, call the model, parse to a string. The
second component threads the Schema Provider call counter. -/
def sql_chain (env : ChainEnv) (question : String) (calls : Nat) : String × Nat :=
  let s := get_schema env calls
  (env.llm (formatTemplate query_template [("schema", s.1), ("question", question)]), s.2)

/-- The full query chain: assign `query` from `sql_chain`, then assign
`schema` from the Schema Provider again and `response` from running the query,
then format the response prompt and call the model. -/
def query_chain (env : ChainEnv) (question : String) (calls : Nat) : String × Nat :=
  let q := sql_chain env question calls
  let s := get_schema env q.2
  let response := run_query_regex env q.1
  (env.llm (formatTemplate response_template
      [("schema", s.1), ("question", question), ("query", q.1), ("response", response)]),
   s.2)

/-- The sub-chain generating an INSERT statement: assign `schema` from the
Schema Provider, format the insert prompt, call the model. -/
def insert_sql_chain (env : ChainEnv) (question : String) (calls : Nat) : String × Nat :=
  let s := get_schema env calls
  (env.llm (formatTemplate insert_template [("schema", s.1), ("question", question)]), s.2)

/-- The full insert chain: assign `query` from `insert_sql_chain`, assign
`result` from running it (the result is discarded), then format the
confirmation prompt, which only uses the original question, and call the
model. -/
def add_expense_chain (env : ChainEnv) (question : String) (calls : Nat) : String × Nat :=
  let q := insert_sql_chain env question calls
  let _result := run_query_regex env q.1
  (env.llm (formatTemplate confirmation_template [("question", question)]), q.2)

/-- The keyword list `palavras_chave_insercao` of `receive_message`. -/
def palavras_chave_insercao : List String :=
  ["adicione", "gastei", "registre", "paguei", "comprei"]

/-- The two chains a message can be routed to. -/
inductive Chain where
  | insert
  | query
deriving DecidableEq, Repr

/-- Substring test: whether `needle` occurs contiguously inside `hay`,
modelling the Python expression `needle in hay` on strings. -/
def infixB (needle : List Char) : List Char → Bool
  | [] => needle.isEmpty
  | c :: rest => needle.isPrefixOf (c :: rest) || infixB needle rest

/-- Substring test on strings. -/
def occursIn (needle hay : String) : Bool := infixB needle.data hay.data

/-- The intent router of `receive_message`: if any insertion keyword occurs in
the lowercased message, the insert chain handles it, otherwise the query
chain. -/
def route_decision (user_message : String) : Chain :=
  if palavras_chave_insercao.any (fun palavra => occursIn palavra (pyLower user_message))
  then Chain.insert else Chain.query

/-- The payload-parsing lines of `receive_message`: extract the first message
of the first change of the first entry, its text body and its sender, each
step a Python subscript that may raise. -/
def parseInbound (data : J) : Except PyExc (J × J) :=
  exBind (data.key "entry") fun entry =>
  exBind (entry.index 0) fun e0 =>
  exBind (e0.key "changes") fun changes =>
  exBind (changes.index 0) fun c0 =>
  exBind (c0.key "value") fun value =>
  exBind (value.key "messages") fun messages =>
  exBind (messages.index 0) fun message =>
  exBind (message.key "text") fun textObj =>
  exBind (textObj.key "body") fun bodyJ =>
  exBind (message.key "from") fun fromJ =>
  Except.ok (bodyJ, fromJ)

/-- The body of the `try` block of `receive_message`: parse the payload, lower
the message text (a string method call that raises on non-strings), route it,
invoke the selected chain (the chain invocations are passed in as functions
that may raise, covering model and database failures), and record the one
outbound send. -/
def tryBody (invokeAdd invokeQuery : String → Except PyExc String) (data : J) :
    Except PyExc (List (J × String)) :=
  exBind (parseInbound data) fun parsed =>
  exBind (parsed.1.asStr) fun user_message =>
  exBind (if route_decision user_message = Chain.insert
          then invokeAdd user_message else invokeQuery user_message) fun reply =>
  Except.ok [(parsed.2, reply)]

/-- The webhook POST handler `receive_message`: run the `try` block; an
exception of class `KeyError`, `IndexError` or `TypeError` is caught, logged
and ignored (HTTP 200, nothing sent); any other exception propagates out of
the handler. On success it returns HTTP 200 with the recorded sends. -/
def receive_message (invokeAdd invokeQuery : String → Except PyExc String) (data : J) :
    Except PyExc (Nat × List (J × String)) :=
  match tryBody invokeAdd invokeQuery data with
  | Except.ok sends => Except.ok (200, sends)
  | Except.error e =>
    if e ∈ caughtExc then Except.ok (200, []) else Except.error e

/-- Number of outbound messages a handler outcome carries. -/
def sendCount : Except PyExc (Nat × List (J × String)) → Nat
  | Except.ok (_, sends) => sends.length
  | Except.error _ => 0

/-- A well-formed webhook payload whose first entry, first change, first
message is `m`, followed by further messages, changes and entries. -/
def mkPayload (m : J) (msgRest changeRest entryRest : List J) : J :=
  J.obj [("entry", J.arr (
    J.obj [("changes", J.arr (
      J.obj [("value", J.obj [("messages", J.arr (m :: msgRest))])] :: changeRest))]
    :: entryRest))]

/-- A concrete message object: text body and sender number. -/
def mkMessage (body senderPhone : String) : J :=
  J.obj [("text", J.obj [("body", J.str body)]), ("from", J.str senderPhone)]

/-- A fixed collaborator environment for concrete evaluations. -/
def env0 : ChainEnv :=
  { llm := fun _ => "SELECT 1", dbRun := fun _ => "resultado", schemaText := "CREATE TABLE gastos" }

/-- A well-formed payload whose message contains no insertion keyword, so it
routes to the query chain. -/
def goodQueryPayload : J := mkPayload (mkMessage "Quanto devo no total?" "5511999990000") [] [] []

/-- A delivery-status callback payload: its first change has no `messages`
field, so parsing raises `KeyError`. -/
def statusPayload : J :=
  J.obj [("entry", J.arr [
    J.obj [("changes", J.arr [
      J.obj [("value", J.obj [("statuses", J.arr [J.str "delivered"])])]])]])]

/-- A chain stub that always succeeds. -/
def okChain : String → Except PyExc String := fun _ => Except.ok "tudo certo"

/-- A chain stub that always succeeds with a different reply. -/
def okChain2 : String → Except PyExc String := fun _ => Except.ok "outra resposta"

/-- A chain stub whose database-execution step raises an engine error. -/
def dbFailChain : String → Except PyExc String := fun _ => Except.error PyExc.operationalError

/-! Helper lemmas. -/

/-- Boolean prefix test agrees with the prefix relation. -/
theorem isPrefixOf_true_iff (l1 : List Char) : ∀ l2 : List Char, l1.isPrefixOf l2 = true ↔ l1 <+: l2 := by
  induction l1 with
  | nil => intro l2; simp [List.isPrefixOf]
  | cons a t ih =>
    intro l2
    cases l2 with
    | nil => simp [List.isPrefixOf]
    | cons b t2 =>
      simp [List.isPrefixOf, List.cons_prefix_cons, ih, Bool.and_eq_true, beq_iff_eq, And.comm]

/-- Boolean substring test agrees with the contiguous-sublist relation. -/
theorem infixB_true_iff (n : List Char) : ∀ h : List Char, infixB n h = true ↔ n <:+: h := by
  intro h
  induction h with
  | nil => simp [infixB, List.isEmpty_iff]
  | cons c t ih =>
    simp [infixB, Bool.or_eq_true, isPrefixOf_true_iff, ih, List.infix_cons_iff]

/-- String substring test agrees with the contiguous-sublist relation on the
character lists. -/
theorem occursIn_true_iff (n h : String) : occursIn n h = true ↔ n.data <:+: h.data :=
  infixB_true_iff n.data h.data

/-- Key lookup can only raise the caught exception classes. -/
theorem key_error_caught (j : J) (k : String) (e : PyExc) (h : j.key k = Except.error e) :
    e ∈ caughtExc := by
  cases j with
  | obj fields =>
    simp only [J.key] at h
    cases hl : fields.lookup k with
    | none => rw [hl] at h; injection h with h2; rw [← h2]; decide
    | some v => rw [hl] at h; exact absurd h (by simp)
  | null => injection h with h2; rw [← h2]; decide
  | jbool b => injection h with h2; rw [← h2]; decide
  | num n => injection h with h2; rw [← h2]; decide
  | str s => injection h with h2; rw [← h2]; decide
  | arr elems => injection h with h2; rw [← h2]; decide

/-- Integer indexing can only raise the caught exception classes. -/
theorem index_error_caught (j : J) (i : Nat) (e : PyExc) (h : j.index i = Except.error e) :
    e ∈ caughtExc := by
  cases j with
  | arr elems =>
    simp only [J.index] at h
    cases hl : elems.get? i with
    | none => rw [hl] at h; injection h with h2; rw [← h2]; decide
    | some v => rw [hl] at h; exact absurd h (by simp)
  | str s =>
    simp only [J.index] at h
    cases hl : s.data.get? i with
    | none => rw [hl] at h; injection h with h2; rw [← h2]; decide
    | some v => rw [hl] at h; exact absurd h (by simp)
  | obj fields => injection h with h2; rw [← h2]; decide
  | null => injection h with h2; rw [← h2]; decide
  | jbool b => injection h with h2; rw [← h2]; decide
  | num n => injection h with h2; rw [← h2]; decide

/-- Elimination principle for a raising sequence: whatever holds of every
exception of the first statement and of every exception of the continuation
holds of the exception of the sequence. -/
theorem exBind_error_elim {α β : Type} {P : PyExc → Prop} (x : Except PyExc α)
    (k : α → Except PyExc β) (e : PyExc)
    (h1 : ∀ e2, x = Except.error e2 → P e2)
    (h2 : ∀ a e2, k a = Except.error e2 → P e2)
    (h : exBind x k = Except.error e) : P e := by
  cases x with
  | error e2 => simp only [exBind] at h; injection h with h3; rw [← h3]; exact h1 e2 rfl
  | ok a => simp only [exBind] at h; exact h2 a e h

/-- Every exception the payload-parsing lines can raise is one of the caught
classes KeyError, IndexError, TypeError. -/
theorem parse_error_caught (data : J) (e : PyExc) (h : parseInbound data = Except.error e) :
    e ∈ caughtExc := by
  unfold parseInbound at h
  refine exBind_error_elim _ _ _ (fun e2 he => key_error_caught _ _ _ he) (fun a e2 h2 => ?_) h
  refine exBind_error_elim _ _ _ (fun e3 he => index_error_caught _ _ _ he) (fun a2 e3 h3 => ?_) h2
  refine exBind_error_elim _ _ _ (fun e4 he => key_error_caught _ _ _ he) (fun a3 e4 h4 => ?_) h3
  refine exBind_error_elim _ _ _ (fun e5 he => index_error_caught _ _ _ he) (fun a4 e5 h5 => ?_) h4
  refine exBind_error_elim _ _ _ (fun e6 he => key_error_caught _ _ _ he) (fun a5 e6 h6 => ?_) h5
  refine exBind_error_elim _ _ _ (fun e7 he => key_error_caught _ _ _ he) (fun a6 e7 h7 => ?_) h6
  refine exBind_error_elim _ _ _ (fun e8 he => index_error_caught _ _ _ he) (fun a7 e8 h8 => ?_) h7
  refine exBind_error_elim _ _ _ (fun e9 he => key_error_caught _ _ _ he) (fun a8 e9 h9 => ?_) h8
  refine exBind_error_elim _ _ _ (fun e10 he => key_error_caught _ _ _ he) (fun a9 e10 h10 => ?_) h9
  refine exBind_error_elim _ _ _ (fun e11 he => key_error_caught _ _ _ he) (fun a10 e11 h11 => ?_) h10
  exact absurd h11 (by simp)

/-- A successful pass through the try block records exactly one outbound
send. -/
theorem tryBody_ok_shape (f g : String → Except PyExc String) (data : J)
    (sends : List (J × String)) (h : tryBody f g data = Except.ok sends) :
    ∃ p r, sends = [(p, r)] := by
  unfold tryBody at h
  cases hp : parseInbound data with
  | error e => rw [hp] at h; exact absurd h (by simp [exBind])
  | ok parsed =>
    rw [hp] at h
    simp only [exBind] at h
    cases ha : parsed.1.asStr with
    | error e => rw [ha] at h; exact absurd h (by simp [exBind])
    | ok s =>
      rw [ha] at h
      simp only [exBind] at h
      cases hr : (if route_decision s = Chain.insert then f s else g s) with
      | error e => rw [hr] at h; exact absurd h (by simp [exBind])
      | ok reply =>
        rw [hr] at h
        simp only [exBind] at h
        injection h with h2
        exact ⟨parsed.2, reply, h2.symm⟩

/-- The handler sends at most one outbound message per inbound payload. -/
theorem sendCount_le_one (f g : String → Except PyExc String) (data : J) :
    sendCount (receive_message f g data) ≤ 1 := by
  unfold receive_message
  cases htb : tryBody f g data with
  | ok sends =>
    obtain ⟨p, r, rfl⟩ := tryBody_ok_shape f g data sends htb
    simp [sendCount]
  | error e =>
    show sendCount (if e ∈ caughtExc then Except.ok (200, []) else Except.error e) ≤ 1
    by_cases hm : e ∈ caughtExc
    · rw [if_pos hm]; simp [sendCount]
    · rw [if_neg hm]; simp [sendCount]

/-! Claim theorems. -/

/-- C1, counterexample. The claim says a database-execution failure inside a
chain is caught at the top-level handler, which returns a fixed apology string
to the user. On a well-formed payload routed to the query chain whose
invocation raises a database OperationalError, the handler instead lets the
exception propagate out of `receive_message` (it is not a KeyError, IndexError
or TypeError), and nothing is sent to the user. -/
theorem db_error_propagates_counterexample :
    receive_message okChain dbFailChain goodQueryPayload =
      Except.error PyExc.operationalError := rfl

/-- C1, amended. The handler catches an exception raised inside its try block
only when it is a KeyError, IndexError or TypeError, in which case it ignores
it silently (HTTP 200, no outbound message and in particular no apology
string); any other exception, including database and model errors which reach
it from the chain invocation, propagates to the caller. -/
theorem handler_error_dichotomy (invokeAdd invokeQuery : String → Except PyExc String)
    (data : J) (e : PyExc) (h : tryBody invokeAdd invokeQuery data = Except.error e) :
    (e ∈ caughtExc → receive_message invokeAdd invokeQuery data = Except.ok (200, [])) ∧
    (e ∉ caughtExc → receive_message invokeAdd invokeQuery data = Except.error e) := by
  constructor
  · intro hm
    unfold receive_message
    rw [h]
    show (if e ∈ caughtExc then Except.ok (200, ([] : List (J × String))) else Except.error e) = _
    rw [if_pos hm]
  · intro hm
    unfold receive_message
    rw [h]
    show (if e ∈ caughtExc then Except.ok (200, ([] : List (J × String))) else Except.error e) = _
    rw [if_neg hm]

/-- C1, witness for the amended theorem: a concrete payload whose query-chain
invocation raises a database error, on which the handler propagates. -/
theorem handler_error_dichotomy_witness :
    receive_message okChain dbFailChain (mkPayload (mkMessage "qual o saldo?" "5511") [] [] []) =
      Except.error PyExc.operationalError :=
  (handler_error_dichotomy okChain dbFailChain
    (mkPayload (mkMessage "qual o saldo?" "5511") [] [] []) PyExc.operationalError rfl).2
    (by decide)

/-- C2. Every call of `clean_sql_query` raises NameError, because its body
evaluates the global name `re`, which is bound nowhere at module level (the
module is never imported); consequently `run_query`, which calls it before
touching the database, raises NameError on every input as well, so every
chain invocation that reaches the SQL-execution step raises. -/
theorem clean_sql_query_always_nameError :
    (∀ q, clean_sql_query q = Except.error PyExc.nameError) ∧
    (∀ env q, run_query env q = Except.error PyExc.nameError) :=
  ⟨fun _ => rfl, fun _ _ => rfl⟩

/-- C3, counterexample. The sanitizer is not idempotent: on the input of a
fence, a space and a fence, one application yields a bare fence (the leading
fence matches nothing because no line end follows it), and a second
application erases that fence, giving a different string. -/
theorem sanitize_not_idempotent_counterexample :
    clean_sql_query_regex "``` ```" = "```" ∧
    clean_sql_query_regex (clean_sql_query_regex "``` ```") = "" ∧
    clean_sql_query_regex (clean_sql_query_regex "``` ```") ≠ clean_sql_query_regex "``` ```" :=
  ⟨rfl, rfl, by decide⟩

/-- C4, counterexample. The substitution runs under `re.MULTILINE`, so the
anchors match at every line boundary: in an input whose only fence is an
interior line, which is neither a leading ```sql marker nor a trailing ```
marker, the fence line is removed anyway, so content other than the
leading/trailing markers and surrounding whitespace is altered. -/
theorem sanitizer_interior_fence_counterexample :
    clean_sql_query_regex "a\n```\nb" = "a\nb" ∧
    pyStripStr "a\n```\nb" = "a\n```\nb" ∧
    clean_sql_query_regex "a\n```\nb" ≠ pyStripStr "a\n```\nb" :=
  ⟨rfl, rfl, by decide⟩

/-- C5. The claim is correct for the transformation the function body
describes, but the code raises NameError before reaching it on every input,
fence-free inputs included: at the concrete fence-free input the executed
function raises, while the regex substitution of its body would return the
trimmed input. -/
theorem clean_sql_query_nameError_on_fence_free_input :
    clean_sql_query "  SELECT valor FROM gastos  " = Except.error PyExc.nameError ∧
    clean_sql_query_regex "  SELECT valor FROM gastos  " =
      pyStripStr "  SELECT valor FROM gastos  " :=
  ⟨rfl, rfl⟩

/-- C6. The intent router selects the insert chain exactly when some keyword
of the fixed insertion list occurs as a contiguous substring of the lowercased
message, and selects the query chain exactly otherwise. -/
theorem router_keyword_iff (msg : String) :
    (route_decision msg = Chain.insert ↔
      ∃ p ∈ palavras_chave_insercao, p.data <:+: (pyLower msg).data) ∧
    (route_decision msg = Chain.query ↔
      ¬ ∃ p ∈ palavras_chave_insercao, p.data <:+: (pyLower msg).data) := by
  have key : (palavras_chave_insercao.any fun palavra => occursIn palavra (pyLower msg)) = true ↔
      ∃ p ∈ palavras_chave_insercao, p.data <:+: (pyLower msg).data := by
    rw [List.any_eq_true]
    constructor
    · rintro ⟨p, hp, hocc⟩
      exact ⟨p, hp, (occursIn_true_iff p (pyLower msg)).mp hocc⟩
    · rintro ⟨p, hp, hinf⟩
      exact ⟨p, hp, (occursIn_true_iff p (pyLower msg)).mpr hinf⟩
  unfold route_decision
  by_cases h : (palavras_chave_insercao.any fun palavra => occursIn palavra (pyLower msg)) = true
  · rw [if_pos h]
    exact ⟨iff_of_true rfl (key.mp h),
           iff_of_false (by decide) (not_not_intro (key.mp h))⟩
  · rw [if_neg h]
    exact ⟨iff_of_false (by decide) (fun hx => h (key.mpr hx)),
           iff_of_true rfl (fun hx => h (key.mpr hx))⟩

/-- C7, counterexample. In a concrete query-chain invocation the Schema
Provider call counter ends at two, not one. -/
theorem query_chain_schema_calls_counterexample :
    (query_chain env0 "Quanto devo no total?" 0).2 = 2 ∧
    (query_chain env0 "Quanto devo no total?" 0).2 ≠ 1 :=
  ⟨rfl, by rw [(rfl : (query_chain env0 "Quanto devo no total?" 0).2 = 2)]; decide⟩

/-- C7, amended. Per invocation, the insert chain calls the Schema Provider
exactly once, while the query chain calls it exactly twice: once inside the
SQL-generation sub-chain and once more, re-fetched, before response
generation. -/
theorem schema_calls_per_chain (env : ChainEnv) (question : String) (calls : Nat) :
    (add_expense_chain env question calls).2 = calls + 1 ∧
    (query_chain env question calls).2 = calls + 2 :=
  ⟨rfl, rfl⟩

/-- C8, counterexample. The insert prompt contains the unconditional
instruction to use the current date and time via NOW() for the `data_hora`
field, and contains no wording about a date or time mentioned in the message
(no form of the word for mentioned, no reference to the message): the
conditional timestamp policy of the claim is absent from the template. -/
theorem insert_prompt_unconditional_now_counterexample :
    occursIn "Use a data e hora atuais para o campo data_hora (usando a função SQL NOW())"
      insert_template = true ∧
    occursIn "mencionad" insert_template = false ∧
    occursIn "na mensagem" insert_template = false :=
  ⟨rfl, rfl, rfl⟩

/-- C8, amended. The insert prompt instructs the model to always populate the
`data_hora` field with the current date and time via the SQL function NOW(),
and to set the `confirmado` field to 0 (FALSE). -/
theorem insert_prompt_timestamp_instruction :
    occursIn "Use a data e hora atuais para o campo data_hora (usando a função SQL NOW())"
      insert_template = true ∧
    occursIn "defina o campo \x27confirmado\x27 como 0 (FALSE)" insert_template = true :=
  ⟨rfl, rfl⟩

/-- C9. A payload on which the message-extraction subscripts raise, such as a
delivery-status event with no messages field, is silently ignored: the
handler returns HTTP 200 with no outbound message, the exception does not
escape, and the outcome does not depend on the chains at all, so neither chain
is invoked. -/
theorem malformed_payload_ignored (invokeAdd invokeQuery invokeAdd2 invokeQuery2 :
      String → Except PyExc String) (data : J) (e : PyExc)
    (h : parseInbound data = Except.error e) :
    receive_message invokeAdd invokeQuery data = Except.ok (200, []) ∧
    receive_message invokeAdd invokeQuery data =
      receive_message invokeAdd2 invokeQuery2 data := by
  have hm : e ∈ caughtExc := parse_error_caught data e h
  have hr : ∀ f g : String → Except PyExc String,
      receive_message f g data = Except.ok (200, []) := by
    intro f g
    have htb : tryBody f g data = Except.error e := by
      unfold tryBody
      rw [h]
      rfl
    unfold receive_message
    rw [htb]
    show (if e ∈ caughtExc then Except.ok (200, ([] : List (J × String))) else Except.error e) = _
    rw [if_pos hm]
  exact ⟨hr _ _, (hr _ _).trans (hr _ _).symm⟩

/-- C9, witness: a concrete delivery-status payload is ignored with HTTP 200
regardless of the chain implementations. -/
theorem malformed_payload_ignored_witness :
    receive_message okChain dbFailChain statusPayload = Except.ok (200, []) ∧
    receive_message okChain dbFailChain statusPayload =
      receive_message okChain2 okChain2 statusPayload :=
  malformed_payload_ignored okChain dbFailChain okChain2 okChain2 statusPayload
    PyExc.keyError rfl

/-- C10. The handler reads only the first message of the first change of the
first entry: its outcome on a payload carrying further messages, changes or
entries equals its outcome with all of them dropped, and on any payload at
most one outbound message is sent, so every message after the first receives
no reply. -/
theorem webhook_first_message_only (invokeAdd invokeQuery : String → Except PyExc String)
    (m : J) (msgRest changeRest entryRest : List J) :
    receive_message invokeAdd invokeQuery (mkPayload m msgRest changeRest entryRest) =
      receive_message invokeAdd invokeQuery (mkPayload m [] [] []) ∧
    ∀ data : J, sendCount (receive_message invokeAdd invokeQuery data) ≤ 1 :=
  ⟨rfl, fun data => sendCount_le_one invokeAdd invokeQuery data⟩

/-! Sanitizer lemmas: the scan is the identity on fence-free inputs, and
stripping is idempotent. -/

/-- The scan of the empty suffix is empty for any fuel. -/
theorem subScan_nil (fuel : Nat) (b : Bool) : subScanF fuel [] b = [] := by
  cases fuel <;> rfl

/-- A successful greedy search yields a successful check at some offset within
the searched range. -/
theorem alt2Go_some (l : List Char) :
    ∀ k n, alt2Go l k = some n → ∃ j, j ≤ k ∧ alt2Check l j = true := by
  intro k
  induction k with
  | zero =>
    intro n h
    simp only [alt2Go] at h
    cases hc : alt2Check l 0 with
    | true => exact ⟨0, Nat.le_refl 0, hc⟩
    | false => rw [hc] at h; simp at h
  | succ k ih =>
    intro n h
    simp only [alt2Go] at h
    cases hc : alt2Check l (k + 1) with
    | true => exact ⟨k + 1, Nat.le_refl _, hc⟩
    | false =>
      rw [hc] at h
      simp at h
      obtain ⟨j, hj, hcheck⟩ := ih n h
      exact ⟨j, Nat.le_succ_of_le hj, hcheck⟩

/-- A match of the opening-fence alternative means the ```sql marker heads the
suffix. -/
theorem alt1At_some (l : List Char) (b : Bool) (n : Nat) (h : alt1At l b = some n) :
    "```sql".data.isPrefixOf l = true := by
  unfold alt1At at h
  cases hc : (b && "```sql".data.isPrefixOf l) with
  | false => rw [hc] at h; simp at h
  | true => exact (Bool.and_eq_true _ _).mp hc |>.2

/-- A successful check places a fence at the checked offset. -/
theorem alt2Check_true (l : List Char) (k : Nat) (h : alt2Check l k = true) :
    fence.isPrefixOf (l.drop k) = true := by
  unfold alt2Check at h
  exact (Bool.and_eq_true _ _).mp h |>.1

/-- The fence heads the ```sql marker. -/
theorem fence_sql_marker : fence <+: "```sql".data := ⟨"sql".data, rfl⟩

/-- On a suffix containing no fence the pattern cannot match. -/
theorem matchAt_none_of_no_fence (l : List Char) (b : Bool) (h : ¬ fence <:+: l) :
    matchAt l b = none := by
  unfold matchAt
  cases h1 : alt1At l b with
  | some n =>
    exfalso
    have hp := (isPrefixOf_true_iff _ _).mp (alt1At_some l b n h1)
    exact h ((fence_sql_marker.trans hp).isInfix)
  | none =>
    show alt2At l = none
    cases h2 : alt2At l with
    | none => rfl
    | some n =>
      exfalso
      obtain ⟨j, _, hcheck⟩ := alt2Go_some l (wsRun l) n h2
      have hp := (isPrefixOf_true_iff _ _).mp (alt2Check_true l j hcheck)
      exact h (hp.isInfix.trans (List.drop_suffix j l).isInfix)

/-- The substitution scan leaves a fence-free input unchanged. -/
theorem subScan_no_fence :
    ∀ (fuel : Nat) (l : List Char) (b : Bool), ¬ fence <:+: l → subScanF fuel l b = l := by
  intro fuel
  induction fuel with
  | zero => intro l b _; rfl
  | succ f ih =>
    intro l b h
    cases l with
    | nil => rfl
    | cons c rest =>
      have hm := matchAt_none_of_no_fence (c :: rest) b h
      simp only [subScanF]
      rw [hm]
      show c :: subScanF f rest (c == '\n') = c :: rest
      rw [ih rest (c == '\n') (fun hx => h (List.infix_cons_iff.mpr (Or.inr hx)))]

/-- A string with a false substring test for the fence has no fence in its
character list. -/
theorem occursIn_false_no_fence (s : String) (h : occursIn "```" s = false) :
    ¬ fence <:+: s.data := by
  intro hinf
  have h2 : occursIn "```" s = true := (infixB_true_iff "```".data s.data).mpr hinf
  rw [h] at h2
  exact absurd h2 (by decide)

/-- On fence-free inputs the regex body of the sanitizer is exactly a trim. -/
theorem clean_regex_no_fence (s : String) (h : occursIn "```" s = false) :
    clean_sql_query_regex s = pyStripStr s := by
  unfold clean_sql_query_regex pyStripStr
  rw [subScan_no_fence s.data.length s.data true (occursIn_false_no_fence s h)]

/-- Dropping a prefix by a predicate never lengthens a list. -/
theorem dropWhile_le_length (p : Char → Bool) (l : List Char) :
    (l.dropWhile p).length ≤ l.length := by
  induction l with
  | nil => exact Nat.le_refl 0
  | cons c t ih =>
    cases hc : p c with
    | true => simp only [List.dropWhile_cons, hc, if_true]; exact Nat.le_succ_of_le ih
    | false => simp [List.dropWhile_cons, hc]

/-- Dropping a prefix by a predicate twice is dropping it once. -/
theorem dropWhileTwice (p : Char → Bool) (l : List Char) :
    (l.dropWhile p).dropWhile p = l.dropWhile p := by
  induction l with
  | nil => rfl
  | cons c t ih =>
    cases hc : p c with
    | true => simp only [List.dropWhile_cons, hc, if_true]; exact ih
    | false => simp [List.dropWhile_cons, hc]

/-- A list fixed by a predicate drop has a head the predicate rejects. -/
theorem head_false_of_dropWhile_self (p : Char → Bool) (c : Char) (t : List Char)
    (h : (c :: t).dropWhile p = c :: t) : p c = false := by
  cases hc : p c with
  | false => rfl
  | true =>
    exfalso
    rw [List.dropWhile_cons, hc, if_pos rfl] at h
    have hlen := congrArg List.length h
    have hle := dropWhile_le_length p t
    simp at hlen
    omega

/-- Trailing stripping shortens a list only at the end: the result heads the
original. -/
theorem rstrip_isPrefix (l : List Char) : pyRStrip l <+: l := by
  refine ⟨(l.reverse.takeWhile pyIsSpace).reverse, ?_⟩
  unfold pyRStrip
  rw [← List.reverse_append, List.takeWhile_append_dropWhile, List.reverse_reverse]

/-- A list with no leading whitespace keeps that property after trailing
stripping. -/
theorem lstrip_of_rstrip (A : List Char) (hA : A.dropWhile pyIsSpace = A) :
    (pyRStrip A).dropWhile pyIsSpace = pyRStrip A := by
  cases hR : pyRStrip A with
  | nil => rfl
  | cons c Y =>
    obtain ⟨R, hRA⟩ := rstrip_isPrefix A
    rw [hR] at hRA
    have hcA : A = c :: (Y ++ R) := by rw [← hRA]; simp
    rw [hcA] at hA
    have hhead := head_false_of_dropWhile_self pyIsSpace c (Y ++ R) hA
    simp [List.dropWhile_cons, hhead]

/-- Trailing stripping is idempotent. -/
theorem rstrip_rstrip (l : List Char) : pyRStrip (pyRStrip l) = pyRStrip l := by
  unfold pyRStrip
  rw [List.reverse_reverse, dropWhileTwice]

/-- Stripping both ends is idempotent. -/
theorem strip_idem (l : List Char) : pyStrip (pyStrip l) = pyStrip l := by
  unfold pyStrip
  rw [show pyLStrip (pyRStrip (pyLStrip l)) = pyRStrip (pyLStrip l) from
      lstrip_of_rstrip _ (dropWhileTwice _ l)]
  exact rstrip_rstrip _

/-- Leading stripping yields a suffix. -/
theorem dropWhile_isSuffix (p : Char → Bool) (l : List Char) : l.dropWhile p <:+ l := by
  induction l with
  | nil => exact ⟨[], rfl⟩
  | cons c t ih =>
    cases hc : p c with
    | true =>
      rw [List.dropWhile_cons, hc, if_pos rfl]
      exact ih.trans (List.suffix_cons c t)
    | false => simp [List.dropWhile_cons, hc]

/-- The stripped list occurs contiguously inside the original. -/
theorem strip_isInfix (l : List Char) : pyStrip l <:+: l :=
  (rstrip_isPrefix (pyLStrip l)).isInfix.trans (dropWhile_isSuffix pyIsSpace l).isInfix

/-- C3, amended. The sanitizer is idempotent on every string containing no
three-backtick fence marker: one application trims such a string, and the
trimmed string, still fence-free, is left unchanged by a second application.
On general strings idempotence fails, as the counterexample shows. -/
theorem sanitize_idempotent_no_fence (s : String) (h : occursIn "```" s = false) :
    clean_sql_query_regex (clean_sql_query_regex s) = clean_sql_query_regex s := by
  have h1 := clean_regex_no_fence s h
  have h2 : occursIn "```" (pyStripStr s) = false := by
    cases hocc : occursIn "```" (pyStripStr s) with
    | false => rfl
    | true =>
      exfalso
      have hinf : fence <:+: pyStrip s.data := (infixB_true_iff _ _).mp hocc
      exact occursIn_false_no_fence s h (hinf.trans (strip_isInfix s.data))
  rw [h1, clean_regex_no_fence _ h2]
  show String.mk (pyStrip (pyStrip s.data)) = String.mk (pyStrip s.data)
  rw [strip_idem]

/-- C3, witness for the amended theorem at a concrete fence-free string. -/
theorem sanitize_idempotent_no_fence_witness :
    occursIn "```" "SELECT 7" = false ∧
    clean_sql_query_regex (clean_sql_query_regex "SELECT 7") = clean_sql_query_regex "SELECT 7" :=
  ⟨by decide, sanitize_idempotent_no_fence "SELECT 7" (by decide)⟩

/-! Lemmas for the fenced-block case: appending the closing fence. -/

/-- A pattern that avoids a character and heads a list split at that character
already heads the left part. -/
theorem prefix_append_cons_not_mem (c : Char) :
    ∀ X : List Char, c ∉ X → ∀ w r : List Char, X <+: (w ++ c :: r) → X <+: w := by
  intro X
  induction X with
  | nil => intro _ w _ _; exact List.nil_prefix
  | cons x X2 ih =>
    intro hmem w r h
    cases w with
    | nil =>
      rw [List.nil_append] at h
      obtain ⟨hx, -⟩ := List.cons_prefix_cons.mp h
      subst hx
      exact absurd (List.mem_cons_self x X2) hmem
    | cons a w2 =>
      rw [List.cons_append] at h
      obtain ⟨hx, hpre⟩ := List.cons_prefix_cons.mp h
      subst hx
      exact List.cons_prefix_cons.mpr
        ⟨rfl, ih (fun hmm => hmem (List.mem_cons_of_mem _ hmm)) w2 r hpre⟩

/-- Taking through an all-accepted left part continues into the right part. -/
theorem takeWhile_append_all (p : Char → Bool) (r : List Char) :
    ∀ a : List Char, (∀ x ∈ a, p x = true) → (a ++ r).takeWhile p = a ++ r.takeWhile p := by
  intro a
  induction a with
  | nil => intro _; rfl
  | cons x t ih =>
    intro h
    rw [List.cons_append, List.takeWhile_cons, h x (List.mem_cons_self x t), if_pos rfl,
        ih (fun y hy => h y (List.mem_cons_of_mem x hy)), List.cons_append]

/-- Dropping through an all-accepted left part continues into the right
part. -/
theorem dropWhile_append_all (p : Char → Bool) (r : List Char) :
    ∀ a : List Char, (∀ x ∈ a, p x = true) → (a ++ r).dropWhile p = r.dropWhile p := by
  intro a
  induction a with
  | nil => intro _; rfl
  | cons x t ih =>
    intro h
    rw [List.cons_append, List.dropWhile_cons, h x (List.mem_cons_self x t), if_pos rfl,
        ih (fun y hy => h y (List.mem_cons_of_mem x hy))]

/-- Dropping an all-accepted list leaves nothing. -/
theorem dropWhile_all_nil (p : Char → Bool) (a : List Char)
    (h : ∀ x ∈ a, p x = true) : a.dropWhile p = [] := by
  have := dropWhile_append_all p [] a h
  rw [List.append_nil] at this
  rw [this]
  rfl

/-- Taking stops inside a left part containing a rejected element. -/
theorem takeWhile_append_stop (p : Char → Bool) (r : List Char) :
    ∀ a : List Char, (∃ x ∈ a, p x = false) → (a ++ r).takeWhile p = a.takeWhile p := by
  intro a
  induction a with
  | nil => rintro ⟨x, hx, -⟩; simp at hx
  | cons c t ih =>
    rintro ⟨x, hx, hpx⟩
    cases hc : p c with
    | false => simp [List.takeWhile_cons, hc]
    | true =>
      have hxt : x ∈ t := by
        cases List.mem_cons.mp hx with
        | inl h1 => subst h1; rw [hc] at hpx; exact absurd hpx (by decide)
        | inr h2 => exact h2
      rw [List.cons_append, List.takeWhile_cons, hc, if_pos rfl, ih ⟨x, hxt, hpx⟩,
          List.takeWhile_cons, hc, if_pos rfl]

/-- Dropping stops inside a left part containing a rejected element. -/
theorem dropWhile_append_stop (p : Char → Bool) (r : List Char) :
    ∀ a : List Char, (∃ x ∈ a, p x = false) → (a ++ r).dropWhile p = a.dropWhile p ++ r := by
  intro a
  induction a with
  | nil => rintro ⟨x, hx, -⟩; simp at hx
  | cons c t ih =>
    rintro ⟨x, hx, hpx⟩
    cases hc : p c with
    | false => simp [List.dropWhile_cons, hc]
    | true =>
      have hxt : x ∈ t := by
        cases List.mem_cons.mp hx with
        | inl h1 => subst h1; rw [hc] at hpx; exact absurd hpx (by decide)
        | inr h2 => exact h2
      rw [List.cons_append, List.dropWhile_cons, hc, if_pos rfl, ih ⟨x, hxt, hpx⟩,
          List.dropWhile_cons, hc, if_pos rfl]

/-- The accepted run is strictly shorter than a list containing a rejected
element. -/
theorem length_takeWhile_lt (p : Char → Bool) :
    ∀ a : List Char, (∃ x ∈ a, p x = false) → (a.takeWhile p).length < a.length := by
  intro a
  induction a with
  | nil => rintro ⟨x, hx, -⟩; simp at hx
  | cons c t ih =>
    rintro ⟨x, hx, hpx⟩
    cases hc : p c with
    | false => simp [List.takeWhile_cons, hc]
    | true =>
      have hxt : x ∈ t := by
        cases List.mem_cons.mp hx with
        | inl h1 => subst h1; rw [hc] at hpx; exact absurd hpx (by decide)
        | inr h2 => exact h2
      rw [List.takeWhile_cons, hc, if_pos rfl, List.length_cons, List.length_cons]
      exact Nat.succ_lt_succ (ih ⟨x, hxt, hpx⟩)

/-- Dropping the accepted run by its length is dropping by the predicate. -/
theorem drop_wsRun (l : List Char) : l.drop (wsRun l) = l.dropWhile pyIsSpace := by
  induction l with
  | nil => rfl
  | cons c t ih =>
    cases hc : pyIsSpace c with
    | true =>
      show (c :: t).drop ((List.takeWhile pyIsSpace (c :: t)).length) = (c :: t).dropWhile pyIsSpace
      rw [List.takeWhile_cons, hc, if_pos rfl, List.length_cons, List.drop_succ_cons,
          List.dropWhile_cons, hc, if_pos rfl]
      exact ih
    | false =>
      show (c :: t).drop ((List.takeWhile pyIsSpace (c :: t)).length) = (c :: t).dropWhile pyIsSpace
      rw [List.takeWhile_cons, hc]
      simp [List.dropWhile_cons, hc]

/-- Trailing stripping of an all-whitespace list leaves nothing. -/
theorem rstrip_all_nil (m : List Char) (h : ∀ x ∈ m, pyIsSpace x = true) :
    pyRStrip m = [] := by
  unfold pyRStrip
  rw [dropWhile_all_nil pyIsSpace m.reverse (fun x hx => h x (List.mem_reverse.mp hx))]
  rfl

/-- Trailing stripping keeps the head whenever the head is kept: either the
head is non-whitespace, or a later element is. -/
theorem rstrip_cons (c : Char) (m : List Char)
    (h : pyIsSpace c = false ∨ ∃ x ∈ m, pyIsSpace x = false) :
    pyRStrip (c :: m) = c :: pyRStrip m := by
  by_cases hm : ∃ x ∈ m, pyIsSpace x = false
  · obtain ⟨x, hx, hpx⟩ := hm
    unfold pyRStrip
    rw [List.reverse_cons,
        dropWhile_append_stop pyIsSpace [c] m.reverse ⟨x, List.mem_reverse.mpr hx, hpx⟩,
        List.reverse_append]
    rfl
  · have hc : pyIsSpace c = false := h.resolve_right hm
    have hall : ∀ x ∈ m, pyIsSpace x = true := by
      intro x hx
      cases hxx : pyIsSpace x with
      | true => rfl
      | false => exact absurd ⟨x, hx, hxx⟩ hm
    rw [rstrip_all_nil m hall]
    unfold pyRStrip
    rw [List.reverse_cons,
        dropWhile_append_all pyIsSpace [c] m.reverse
          (fun x hx => hall x (List.mem_reverse.mp hx)),
        show List.dropWhile pyIsSpace [c] = [c] from by simp [List.dropWhile_cons, hc]]
    rfl

/-- One scan step when the pattern matches at the head. -/
theorem subScan_step_some (fuel : Nat) (c : Char) (rest : List Char) (b : Bool) (n : Nat)
    (h : matchAt (c :: rest) b = some n) :
    subScanF (fuel + 1) (c :: rest) b =
      subScanF fuel ((c :: rest).drop n) (((c :: rest).get? (n - 1)) == some '\n') := by
  simp only [subScanF]
  rw [h]

/-- One scan step when the pattern does not match at the head. -/
theorem subScan_step_none (fuel : Nat) (c : Char) (rest : List Char) (b : Bool)
    (h : matchAt (c :: rest) b = none) :
    subScanF (fuel + 1) (c :: rest) b = c :: subScanF fuel rest (c == '\n') := by
  simp only [subScanF]
  rw [h]

/-- A bare fence at a line start (with any anchor flag) is consumed whole. -/
theorem fence_scan (fuel : Nat) (b : Bool) (h : 3 ≤ fuel) : subScanF fuel fence b = [] := by
  cases fuel with
  | zero => omega
  | succ f =>
    have h1 : matchAt fence b = some 3 := by
      unfold matchAt
      rw [show alt1At fence b = none from ?_]
      · show alt2At fence = some 3
        decide
      · unfold alt1At
        rw [show ("```sql".data.isPrefixOf fence) = false from by decide, Bool.and_false]
        rfl
    obtain ⟨c, rest, hcr⟩ : ∃ c rest, fence = c :: rest := ⟨_, _, rfl⟩
    rw [hcr] at h1 ⊢
    rw [subScan_step_some f c rest b 3 h1]
    have hd : (c :: rest).drop 3 = [] := by rw [← hcr]; decide
    rw [hd, subScan_nil]

/-- Scanning a block body followed by a newline and a closing fence: the scan
removes the trailing whitespace of the body together with the closing fence,
provided the body itself contains no fence. -/
theorem scanTail :
    ∀ (m : List Char) (fuel : Nat) (b : Bool), (m ++ nlFence).length ≤ fuel →
      ¬ fence <:+: m → subScanF fuel (m ++ nlFence) b = pyRStrip m := by
  intro m
  induction m with
  | nil =>
    intro fuel b hlen _
    rw [List.nil_append]
    cases fuel with
    | zero => exact absurd hlen (by decide)
    | succ f =>
      have h1 : matchAt nlFence b = some 4 := by
        unfold matchAt
        rw [show alt1At nlFence b = none from ?_]
        · show alt2At nlFence = some 4
          decide
        · unfold alt1At
          rw [show ("```sql".data.isPrefixOf nlFence) = false from by decide, Bool.and_false]
          rfl
      rw [show nlFence = '\n' :: fence from rfl] at h1 ⊢
      rw [subScan_step_some f '\n' fence b 4 h1]
      have hd : ('\n' :: fence).drop 4 = [] := by decide
      rw [hd, subScan_nil]
      rfl
  | cons c m2 ih =>
    intro fuel b hlen hinf
    cases fuel with
    | zero =>
      exfalso
      simp [List.length_append] at hlen
    | succ f =>
      by_cases hall : ∀ x ∈ c :: m2, pyIsSpace x = true
      · have hwc : pyIsSpace c = true := hall c (List.mem_cons_self c m2)
        have hws : wsRun ((c :: m2) ++ nlFence) = (c :: m2).length + 1 := by
          unfold wsRun
          rw [takeWhile_append_all pyIsSpace nlFence (c :: m2) hall, List.length_append,
              show (List.takeWhile pyIsSpace nlFence).length = 1 from rfl]
        have hdropfence : ((c :: m2) ++ nlFence).drop ((c :: m2).length + 1) = fence := by
          rw [← List.drop_drop, List.drop_left]
          rfl
        have hdropall : ((c :: m2) ++ nlFence).drop ((c :: m2).length + 4) = [] := by
          rw [← List.drop_drop, List.drop_left]
          rfl
        have hcheck : alt2Check ((c :: m2) ++ nlFence) ((c :: m2).length + 1) = true := by
          unfold alt2Check
          rw [hdropfence, show (c :: m2).length + 1 + 3 = (c :: m2).length + 4 from by omega,
              hdropall]
          decide
        have h1 : matchAt ((c :: m2) ++ nlFence) b = some ((c :: m2).length + 4) := by
          unfold matchAt
          rw [show alt1At ((c :: m2) ++ nlFence) b = none from ?_]
          · show alt2At ((c :: m2) ++ nlFence) = some ((c :: m2).length + 4)
            unfold alt2At
            rw [hws]
            simp only [alt2Go]
            rw [hcheck, if_pos rfl]
          · unfold alt1At
            rw [show ("```sql".data.isPrefixOf ((c :: m2) ++ nlFence)) = false from ?_,
                Bool.and_false]
            · rfl
            · cases hp : ("```sql".data.isPrefixOf ((c :: m2) ++ nlFence)) with
              | false => rfl
              | true =>
                exfalso
                obtain ⟨t, ht⟩ := (isPrefixOf_true_iff _ _).mp hp
                have h0 : ("```sql".data ++ t).get? 0 = some c := by rw [ht]; rfl
                have hc0 : "```sql".data.get? 0 = some c := by
                  rw [show "```sql".data.get? 0 = ("```sql".data ++ t).get? 0 from rfl]
                  exact h0
                have hmap : ("```sql".data.get? 0).map pyIsSpace = some false := by decide
                rw [hc0] at hmap
                simp at hmap
                rw [hwc] at hmap
                exact absurd hmap (by decide)
        rw [show (c :: m2) ++ nlFence = c :: (m2 ++ nlFence) from rfl] at h1 ⊢
        rw [subScan_step_some f c (m2 ++ nlFence) b _ h1]
        rw [show (c :: (m2 ++ nlFence)).drop ((c :: m2).length + 4) = [] from by
          rw [show c :: (m2 ++ nlFence) = (c :: m2) ++ nlFence from rfl, ← List.drop_drop,
              List.drop_left]
          rfl]
        rw [subScan_nil]
        exact (rstrip_all_nil (c :: m2) hall).symm
      · have hex : ∃ x ∈ c :: m2, pyIsSpace x = false := by
          obtain ⟨x, hx⟩ := not_forall.mp hall
          obtain ⟨hmem2, hne⟩ := Classical.not_imp.mp hx
          refine ⟨x, hmem2, ?_⟩
          cases hxx : pyIsSpace x with
          | false => rfl
          | true => exact absurd hxx hne
        have hm : matchAt ((c :: m2) ++ nlFence) b = none := by
          unfold matchAt
          rw [show alt1At ((c :: m2) ++ nlFence) b = none from ?_]
          · show alt2At ((c :: m2) ++ nlFence) = none
            cases h2 : alt2At ((c :: m2) ++ nlFence) with
            | none => rfl
            | some n =>
              exfalso
              obtain ⟨j, hj, hcheck⟩ := alt2Go_some _ _ n h2
              have hwlt : wsRun ((c :: m2) ++ nlFence) < (c :: m2).length := by
                unfold wsRun
                rw [takeWhile_append_stop pyIsSpace nlFence (c :: m2) hex]
                exact length_takeWhile_lt pyIsSpace (c :: m2) hex
              have hjle : j ≤ (c :: m2).length := by omega
              have hdropj : ((c :: m2) ++ nlFence).drop j = (c :: m2).drop j ++ nlFence :=
                List.drop_append_of_le_length hjle
              have hp := (isPrefixOf_true_iff _ _).mp (alt2Check_true _ j hcheck)
              rw [hdropj, show nlFence = '\n' :: fence from rfl] at hp
              have hp2 : fence <+: (c :: m2).drop j :=
                prefix_append_cons_not_mem '\n' fence (by decide) _ _ hp
              exact hinf (hp2.isInfix.trans (List.drop_suffix j (c :: m2)).isInfix)
          · unfold alt1At
            cases hp : ("```sql".data.isPrefixOf ((c :: m2) ++ nlFence)) with
            | false => rw [Bool.and_false]; rfl
            | true =>
              exfalso
              have hpre := (isPrefixOf_true_iff _ _).mp hp
              rw [show (c :: m2) ++ nlFence = (c :: m2) ++ '\n' :: fence from rfl] at hpre
              have hq : "```sql".data <+: (c :: m2) :=
                prefix_append_cons_not_mem '\n' "```sql".data (by decide) _ _ hpre
              exact hinf ((fence_sql_marker.trans hq).isInfix)
        rw [show (c :: m2) ++ nlFence = c :: (m2 ++ nlFence) from rfl] at hm ⊢
        rw [subScan_step_none f c (m2 ++ nlFence) b hm]
        have hlen2 : (m2 ++ nlFence).length ≤ f := by
          simp [List.length_append] at hlen ⊢
          omega
        have hinf2 : ¬ fence <:+: m2 := fun hx => hinf (List.infix_cons_iff.mpr (Or.inr hx))
        rw [ih f (c == '\n') hlen2 hinf2]
        have hd : pyIsSpace c = false ∨ ∃ x ∈ m2, pyIsSpace x = false := by
          obtain ⟨x, hx, hpx⟩ := hex
          cases List.mem_cons.mp hx with
          | inl h1 => left; rw [h1] at hpx; exact hpx
          | inr h2 => right; exact ⟨x, h2, hpx⟩
        exact (rstrip_cons c m2 hd).symm

/-- Scanning a whole fenced block: the opening ```sql marker and the greedy
whitespace after it are consumed by the first match, the fence-free body is
kept (with a line-end match removing its trailing whitespace together with the
closing fence), so the scan returns the stripped body. -/
theorem wrapScan (bl : List Char) (fuel : Nat)
    (hlen : ("```sql\n".data ++ (bl ++ nlFence)).length ≤ fuel)
    (hinf : ¬ fence <:+: bl) :
    subScanF fuel ("```sql\n".data ++ (bl ++ nlFence)) true = pyStrip bl := by
  cases fuel with
  | zero =>
    exfalso
    simp [List.length_append] at hlen
  | succ f =>
    have h1 : matchAt ("```sql\n".data ++ (bl ++ nlFence)) true =
        some (6 + wsRun ('\n' :: (bl ++ nlFence))) := by
      unfold matchAt alt1At
      rw [show ("```sql".data.isPrefixOf ("```sql\n".data ++ (bl ++ nlFence))) = true from rfl]
      rw [show (true && true) = true from rfl, if_pos rfl]
      rw [show ("```sql\n".data ++ (bl ++ nlFence)).drop 6 = '\n' :: (bl ++ nlFence) from rfl]
    obtain ⟨c0, r0, hcr⟩ :
        ∃ c0 r0, "```sql\n".data ++ (bl ++ nlFence) = c0 :: r0 := ⟨_, _, rfl⟩
    rw [hcr] at h1 ⊢
    rw [subScan_step_some f c0 r0 true _ h1]
    rw [← hcr]
    have hws : wsRun ('\n' :: (bl ++ nlFence)) = wsRun (bl ++ nlFence) + 1 := by
      unfold wsRun
      rw [List.takeWhile_cons, show pyIsSpace '\n' = true from rfl, if_pos rfl,
          List.length_cons]
    have hdrop : ("```sql\n".data ++ (bl ++ nlFence)).drop (6 + wsRun ('\n' :: (bl ++ nlFence)))
        = pyLStrip (bl ++ nlFence) := by
      rw [hws, show 6 + (wsRun (bl ++ nlFence) + 1) = 7 + wsRun (bl ++ nlFence) from by omega,
          ← List.drop_drop,
          show ("```sql\n".data ++ (bl ++ nlFence)).drop 7 = bl ++ nlFence from rfl]
      exact drop_wsRun (bl ++ nlFence)
    rw [hdrop]
    by_cases hall : ∀ x ∈ bl, pyIsSpace x = true
    · rw [show pyLStrip (bl ++ nlFence) = fence from by
        unfold pyLStrip
        rw [dropWhile_append_all pyIsSpace nlFence bl hall]
        rfl]
      rw [fence_scan f _ (by simp [List.length_append] at hlen; omega)]
      unfold pyStrip
      rw [show pyLStrip bl = [] from dropWhile_all_nil pyIsSpace bl hall]
      rfl
    · have hex : ∃ x ∈ bl, pyIsSpace x = false := by
        obtain ⟨x, hx⟩ := not_forall.mp hall
        obtain ⟨hmem2, hne⟩ := Classical.not_imp.mp hx
        refine ⟨x, hmem2, ?_⟩
        cases hxx : pyIsSpace x with
        | false => rfl
        | true => exact absurd hxx hne
      rw [show pyLStrip (bl ++ nlFence) = pyLStrip bl ++ nlFence from
        dropWhile_append_stop pyIsSpace nlFence bl hex]
      have hinf2 : ¬ fence <:+: pyLStrip bl := fun hx =>
        hinf (hx.trans (dropWhile_isSuffix pyIsSpace bl).isInfix)
      have hlen2 : (pyLStrip bl ++ nlFence).length ≤ f := by
        have h1l := dropWhile_le_length pyIsSpace bl
        simp [pyLStrip, List.length_append] at hlen ⊢
        omega
      rw [scanTail (pyLStrip bl) f _ hlen2 hinf2]
      rfl

/-- C4, amended. For every fenced input of the documented shape, an opening
```sql marker on its own line, a fence-free SQL body, and a closing fence on
the final line, the sanitizer returns exactly the body with surrounding
whitespace trimmed, altering nothing else; but the anchors are line-anchors, so
an input carrying a fence marker at an interior line boundary has that marker
removed too, as the counterexample shows, and on such inputs content other
than the outer markers is altered. -/
theorem sanitizer_fence_wrapped (body : String) (h : occursIn "```" body = false) :
    clean_sql_query_regex ("```sql\n" ++ body ++ "\n```") = pyStripStr body := by
  obtain ⟨bl⟩ := body
  have hdata : ("```sql\n" ++ String.mk bl ++ "\n```").data =
      "```sql\n".data ++ (bl ++ nlFence) := by
    rw [String.data_append, String.data_append, List.append_assoc]
    rfl
  unfold clean_sql_query_regex
  rw [hdata, wrapScan bl _ (Nat.le_refl _) (occursIn_false_no_fence (String.mk bl) h)]
  unfold pyStripStr
  rw [show (String.mk bl).data = bl from rfl, strip_idem]

/-- C4, witness for the amended theorem at a concrete fenced block. -/
theorem sanitizer_fence_wrapped_witness :
    occursIn "```" "SELECT 1;" = false ∧
    clean_sql_query_regex ("```sql\n" ++ "SELECT 1;" ++ "\n```") = pyStripStr "SELECT 1;" :=
  ⟨by decide, sanitizer_fence_wrapped "SELECT 1;" (by decide)⟩
